import Mathlib

/-!
A shallow embedding of the meson-ext-rs build helper (`src/config.rs`) and
proofs about it.  Rust strings are modelled as Lean `String`s (operations are
re-implemented structurally over `String.data` so that the kernel can evaluate
them); the process environment, the filesystem and subprocess execution are
passed in explicitly as functions; a Rust panic (`unwrap` / `expect`) is
modelled as `none` / a dedicated `panicked` outcome; machine integers (`i32`
exit codes) are modelled as `Int`, `u64` version numbers as `Nat`.
-/

namespace MesonExt

/-! ## String helpers (structural re-implementations of the Rust/std string
operations used by the source, restricted to ASCII where Rust is
Unicode-aware) -/

/-- Models `str::to_uppercase().replace("-", "_")` from
`Config::find_meson_target_specific_env` (ASCII fragment: target triples are
ASCII). -/
def rustUpperSnake (s : String) : String :=
  String.mk ((s.data.map Char.toUpper).map (fun c => if c = '-' then '_' else c))

/-- Drop leading and trailing whitespace of a character list. -/
def trimChars (l : List Char) : List Char :=
  ((l.dropWhile Char.isWhitespace).reverse.dropWhile Char.isWhitespace).reverse

/-- Models `str::trim` (ASCII whitespace fragment). -/
def rustTrim (s : String) : String :=
  String.mk (trimChars s.data)

/-- Models `Path::join` for the relative components used by the source
("build", "install", "build.ninja"). -/
def pathJoin (base child : String) : String :=
  base ++ "/" ++ child

/-! ## The semantic-version parser

`Config::get_version_of_meson` delegates parsing to the external `semver`
crate (`semver::Version::parse`).  The crate is not part of this repository;
it is modelled here from the Semantic Versioning 2.0.0 grammar it implements:
`MAJOR.MINOR.PATCH` with optional `-PRERELEASE` and `+BUILD` suffixes,
numeric components without leading zeros, dot-separated non-empty
alphanumeric/hyphen identifiers, numeric pre-release identifiers without
leading zeros.  (The crate additionally caps numeric components at `u64`;
the model uses `Nat`.) -/

/-- Models `semver::Version`: the parsed structured version.  Pre-release and
build metadata are kept as their dot-separated identifier lists. -/
structure Version where
  major : Nat
  minor : Nat
  patch : Nat
  pre : List String
  build : List String
deriving DecidableEq, Repr

/-- Numeric value of a digit character. -/
def digitVal (c : Char) : Nat := c.toNat - '0'.toNat

/-- Value of a big-endian digit string. -/
def digitsVal (l : List Char) : Nat :=
  l.foldl (fun a c => 10 * a + digitVal c) 0

/-- Parse a semver numeric identifier: non-empty, all digits, no leading
zero. -/
def parseNumericIdent (l : List Char) : Option Nat :=
  if l = [] then none
  else if l.all Char.isDigit then
    if 1 < l.length ∧ l.head? = some '0' then none
    else some (digitsVal l)
  else none

/-- Characters allowed in pre-release/build identifiers: `[0-9A-Za-z-]`. -/
def isIdentChar (c : Char) : Bool :=
  c.isDigit || ('A' ≤ c && c ≤ 'Z') || ('a' ≤ c && c ≤ 'z') || c = '-'

/-- A valid pre-release identifier: non-empty, ident characters, and if all
digits then no leading zero. -/
def isPreIdent (l : List Char) : Bool :=
  !l.isEmpty && l.all isIdentChar &&
    (!(l.all Char.isDigit) || decide (¬ (1 < l.length ∧ l.head? = some '0')))

/-- A valid build identifier: non-empty, ident characters (leading zeros are
allowed in build metadata). -/
def isBuildIdent (l : List Char) : Bool :=
  !l.isEmpty && l.all isIdentChar

/-- Split a character list at the first occurrence of `sep`: the part before
it and, when `sep` occurs, the part after it. -/
def splitFirst (sep : Char) : List Char → List Char × Option (List Char)
  | [] => ([], none)
  | c :: rest =>
    if c = sep then ([], some rest)
    else
      let r := splitFirst sep rest
      (c :: r.1, r.2)

/-- Split a character list on every occurrence of `sep` (like
`str::split`): always returns at least one (possibly empty) part. -/
def splitOnChar (sep : Char) : List Char → List (List Char)
  | [] => [[]]
  | c :: rest =>
    let r := splitOnChar sep rest
    if c = sep then [] :: r
    else
      match r with
      | [] => [[c]]
      | h :: t => (c :: h) :: t

/-- Parse a dot-separated identifier sequence, each part checked by `ok`. -/
def parseDotted (ok : List Char → Bool) (l : List Char) : Option (List String) :=
  let parts := splitOnChar '.' l
  if parts.all ok then some (parts.map String.mk) else none

/-- Parse the optional pre-release suffix (the text after the first `'-'`,
when present): absent means no pre-release identifiers. -/
def parsePreOpt : Option (List Char) → Option (List String)
  | none => some []
  | some pr => parseDotted isPreIdent pr

/-- Parse the optional build-metadata suffix (the text after the first
`'+'`, when present): absent means no build identifiers. -/
def parseBuildOpt : Option (List Char) → Option (List String)
  | none => some []
  | some bu => parseDotted isBuildIdent bu

/-- Models `semver::Version::parse` on the character list of the input:
split off the build metadata at the first `'+'`, the pre-release at the
first `'-'` before it, then require exactly three dot-separated numeric
identifiers for the version core. -/
def parseVersion (l : List Char) : Option Version :=
  match splitOnChar '.' (splitFirst '-' (splitFirst '+' l).1).1 with
  | [majC, minC, patC] =>
    match parseNumericIdent majC, parseNumericIdent minC, parseNumericIdent patC,
        parsePreOpt (splitFirst '-' (splitFirst '+' l).1).2,
        parseBuildOpt (splitFirst '+' l).2 with
    | some maj, some minr, some pat, some pre, some bld =>
      some ⟨maj, minr, pat, pre, bld⟩
    | _, _, _, _, _ => none
  | _ => none

/-- Models `semver::Version::parse`. -/
def Version.parse (s : String) : Option Version :=
  parseVersion s.data

/-! ## Rendering a version back to text (the specification side of claim C7:
the grammar of valid `X.Y.Z[-pre][+build]` texts, as the image of this
renderer on valid identifier lists) -/

/-- The digit character of `d < 10`. -/
def digitChar (d : Nat) : Char := Char.ofNat ('0'.toNat + d)

/-- Big-endian decimal digits of `n`, with `fuel` bounding the recursion. -/
def natDigitsAux : Nat → Nat → List Char
  | 0, _ => []
  | fuel + 1, n =>
    if n = 0 then []
    else natDigitsAux fuel (n / 10) ++ [digitChar (n % 10)]

/-- Decimal rendering of `n` (models `u64`'s `Display`). -/
def natDigits (n : Nat) : List Char :=
  if n = 0 then ['0'] else natDigitsAux (n + 1) n

/-- Join identifier parts with `'.'` separators. -/
def joinDots : List (List Char) → List Char
  | [] => []
  | [p] => p
  | p :: ps => p ++ '.' :: joinDots ps

/-- The `MAJOR.MINOR.PATCH` core text of a `Version`. -/
def versionCore (v : Version) : List Char :=
  natDigits v.major ++ '.' :: (natDigits v.minor ++ '.' :: natDigits v.patch)

/-- Canonical text of a `Version`: `MAJOR.MINOR.PATCH[-pre][+build]`. -/
def renderVersion (v : Version) : List Char :=
  (versionCore v
      ++ (if v.pre = [] then [] else '-' :: joinDots (v.pre.map String.data)))
    ++ (if v.build = [] then [] else '+' :: joinDots (v.build.map String.data))

/-- All pre-release identifiers of `v` are valid. -/
def validPre (v : Version) : Bool :=
  v.pre.all (fun p => isPreIdent p.data)

/-- All build identifiers of `v` are valid. -/
def validBuild (v : Version) : Bool :=
  v.build.all (fun p => isBuildIdent p.data)

/-! ## The environment, the error type and the process model -/

/-- The process environment, as read by `std::env::var` / `var_os`: a lookup
from variable name to its value (`none` = unset; the non-unicode-value cases
of `var` are not distinguished). -/
def Env : Type := String → Option String

/-- Modelled from the spec: the crate's unified error type is declared in the
crate root (`lib.rs`), which is not among the repository files available
here.  The `Meson…` variants are exactly the ones `config.rs` constructs;
`ProcessLaunchError`, `InvalidUtf8` and `VersionParseError` are the variants
spec §7 names for the `From`-conversions `config.rs` triggers with `?` on
`io::Error`, `Utf8Error` and `semver::Error`. -/
inductive Error where
  | ProcessLaunchError
  | MesonExitedUnsuccessfully (code : Int)
  | MesonConfiguredUnsuccessfully (code : Int)
  | MesonBuildUnsuccessfully (code : Int)
  | MesonExitedBySignal
  | InvalidUtf8
  | VersionParseError
deriving DecidableEq, Repr

/-- One subprocess launch: the executable, the working directory
(`Command::current_dir`) and the argument list.  Paths are carried as the
strings they print to (`OsString` is collapsed into `String`). -/
structure Invocation where
  cmd : String
  cwd : String
  args : List String
deriving DecidableEq, Repr

/-- What `Command::status()` yields for one launch: an `io::Error` (the
process could not be spawned), a normal termination with an exit code, or
termination by a signal (`status.code() == None`). -/
inductive SpawnOutcome where
  | launchFailure
  | exited (code : Int)
  | signaled
deriving DecidableEq, Repr

/-- The operating system's behaviour for subprocess launches, passed in
explicitly: the outcome of each invocation. -/
def Runner : Type := Invocation → SpawnOutcome

/-- The filesystem oracle for `Path::exists`, passed in explicitly. -/
def Fs : Type := String → Bool

/-- Result of one driver operation: `ok`, an `Error`, or a Rust panic
(`unwrap` / `expect` on a missing environment variable). -/
inductive Outcome where
  | ok
  | error (e : Error)
  | panicked
deriving DecidableEq, Repr

/-- The diagnostics `config.rs` prints on the cargo side channel. -/
inductive Diagnostic where
  | infoEmptyProfile
  | warnUnknownProfile (p : String)
deriving DecidableEq, Repr

/-! ## The `Config` structure and its operations (from `src/config.rs`) -/

/-- The `Config` struct of `config.rs`.  The `options` `HashMap` is modelled
as an association list in the map's iteration order (keys unique). -/
structure Config where
  meson_path : String
  meson_version : Version
  native_file : Option String
  cross_file : Option String
  out_path : Option String
  options : List (String × String)
  profile : Option String
deriving DecidableEq, Repr

/-- Embeds `Config::set_native_file`. -/
def Config.set_native_file (cfg : Config) (file : String) : Config :=
  { cfg with native_file := some file }

/-- Embeds `Config::set_cross_file`. -/
def Config.set_cross_file (cfg : Config) (file : String) : Config :=
  { cfg with cross_file := some file }

/-- Embeds `Config::set_out_path`. -/
def Config.set_out_path (cfg : Config) (path : String) : Config :=
  { cfg with out_path := some path }

/-- Insertion into the options map, last write wins (`HashMap::insert`
overwrites an existing key in place). -/
def insertOption : List (String × String) → String → String → List (String × String)
  | [], key, value => [(key, value)]
  | (k, v) :: rest, key, value =>
    if k = key then (key, value) :: rest else (k, v) :: insertOption rest key value

/-- Embeds `Config::set_option`. -/
def Config.set_option (cfg : Config) (key value : String) : Config :=
  { cfg with options := insertOption cfg.options key value }

/-- Embeds `Config::set_profile`. -/
def Config.set_profile (cfg : Config) (profile : String) : Config :=
  { cfg with profile := some profile }

/-- Embeds the private method `Config::out_path()`: the explicit `out_path`
field when set, else the `OUT_DIR` environment variable; `none` models the
`expect` panic ("OUT_DIR is not set. Are you running outside of build.rs?")
when that variable is absent. -/
def Config.out_path? (cfg : Config) (env : Env) : Option String :=
  match cfg.out_path with
  | some path => some path
  | none => env "OUT_DIR"

/-- Embeds `Config::build_dir`: `out_path().join("build")`. -/
def Config.build_dir? (cfg : Config) (env : Env) : Option String :=
  (cfg.out_path? env).map (fun p => pathJoin p "build")

/-- Embeds `Config::install_dir`: `out_path().join("install")`. -/
def Config.install_dir? (cfg : Config) (env : Env) : Option String :=
  (cfg.out_path? env).map (fun p => pathJoin p "install")

/-- Embeds `Config::is_configured`: whether `build_dir()/build.ninja`
exists; `none` models the `OUT_DIR` panic inside `build_dir()`. -/
def Config.is_configured (cfg : Config) (env : Env) (fs : Fs) : Option Bool :=
  (cfg.build_dir? env).map (fun bd => fs (pathJoin bd "build.ninja"))

/-- Embeds the private method `Config::profile()` together with its cargo
diagnostics: the explicit profile when set, else the `PROFILE` environment
variable mapped through the `"debug"` / `"release"` / unknown-value match;
`none` models the `unwrap` panic when `PROFILE` is absent. -/
def Config.profile? (cfg : Config) (env : Env) : Option (String × List Diagnostic) :=
  match cfg.profile with
  | some profile => some (profile, [])
  | none =>
    match env "PROFILE" with
    | none => none
    | some profile =>
      if profile = "debug" then some ("debug", [])
      else if profile = "release" then some ("release", [])
      else some ("release", [.warnUnknownProfile profile])

/-- Embeds `Config::find_meson_target_specific_env`: the value of
`MESON_<TARGET upper-cased, '-' → '_'>` when `TARGET` is set, else `none`. -/
def Config.find_meson_target_specific_env (env : Env) : Option String :=
  match env "TARGET" with
  | none => none
  | some target => env ("MESON_" ++ rustUpperSnake target)

/-- Embeds `Config::find_meson_in_system`.  The Rust function returns
`Result` but every branch is `Ok`; the model therefore returns a plain
`String` — resolution itself never fails. -/
def Config.find_meson_in_system (env : Env) : String :=
  match Config.find_meson_target_specific_env env with
  | some meson => meson
  | none =>
    match env "MESON" with
    | some meson => meson
    | none => "meson"

/-- Embeds `Config::configure`, returning the outcome, the invocations it
spawned (in order) and the diagnostics it printed.  `std::fs::create_dir_all`
is modelled as succeeding. -/
def Config.configure (cfg : Config) (env : Env) (fs : Fs) (run : Runner)
    (source_dir : String) : Outcome × List Invocation × List Diagnostic :=
  match cfg.out_path? env with
  | none => (.panicked, [], [])
  | some out =>
    if fs (pathJoin (pathJoin out "build") "build.ninja") then (.ok, [], [])
    else
      match cfg.profile? env with
      | none => (.panicked, [], [])
      | some (profile, diags) =>
        let diags := diags ++ (if profile = "" then [.infoEmptyProfile] else [])
        let args := ["setup"]
          ++ (if profile = "" then [] else ["--buildtype", profile])
          ++ cfg.options.map (fun kv => "-D" ++ kv.1 ++ "=" ++ kv.2)
          ++ (match cfg.native_file with
              | some f => ["--native-file", f]
              | none => [])
          ++ (match cfg.cross_file with
              | some f => ["--cross-file", f]
              | none => [])
          ++ ["--prefix", pathJoin out "install", source_dir]
        let inv : Invocation := ⟨cfg.meson_path, source_dir, args⟩
        match run inv with
        | .launchFailure => (.error .ProcessLaunchError, [inv], diags)
        | .signaled => (.error .MesonExitedBySignal, [inv], diags)
        | .exited code =>
          if code = 0 then (.ok, [inv], diags)
          else (.error (.MesonConfiguredUnsuccessfully code), [inv], diags)

/-- Embeds `Config::build`: configure, then the `build -C <build_dir>` step,
then the `install -C <build_dir>` step, each a separate subprocess, aborting
at the first failure.  The install branch constructs
`Error::MesonBuildUnsuccessfully` exactly as `config.rs` line 192 does. -/
def Config.build (cfg : Config) (env : Env) (fs : Fs) (run : Runner)
    (source_dir : String) : Outcome × List Invocation × List Diagnostic :=
  match cfg.configure env fs run source_dir with
  | (Outcome.ok, invs, diags) =>
    (match cfg.out_path? env with
    | none => (.panicked, invs, diags)
    | some out =>
      let build_dir := pathJoin out "build"
      let binv : Invocation := ⟨cfg.meson_path, source_dir, ["build", "-C", build_dir]⟩
      match run binv with
      | .launchFailure => (.error .ProcessLaunchError, invs ++ [binv], diags)
      | .signaled => (.error .MesonExitedBySignal, invs ++ [binv], diags)
      | .exited code =>
        if code = 0 then
          let iinv : Invocation := ⟨cfg.meson_path, source_dir, ["install", "-C", build_dir]⟩
          match run iinv with
          | .launchFailure => (.error .ProcessLaunchError, invs ++ [binv, iinv], diags)
          | .signaled => (.error .MesonExitedBySignal, invs ++ [binv, iinv], diags)
          | .exited icode =>
            if icode = 0 then (.ok, invs ++ [binv, iinv], diags)
            else (.error (.MesonBuildUnsuccessfully icode), invs ++ [binv, iinv], diags)
        else (.error (.MesonBuildUnsuccessfully code), invs ++ [binv], diags))
  | other => other

/-! ## Version resolution (`Config::get_version_of_meson`) -/

/-- Termination state of the version-query process (from
`Output::status`). -/
inductive ExitStatus where
  | exited (code : Int)
  | signaled
deriving DecidableEq, Repr

/-- The captured standard output, after the `core::str::from_utf8` boundary:
either decoded text or invalid UTF-8. -/
inductive CapturedStdout where
  | decoded (s : String)
  | invalid
deriving DecidableEq, Repr

/-- What `command.output()` yields for the `--version` query. -/
inductive VersionCapture where
  | launchFailure
  | captured (status : ExitStatus) (stdout : CapturedStdout)
deriving DecidableEq, Repr

/-- Embeds `Config::get_version_of_meson` given the capture of the
`--version` subprocess: check the exit status, decode the output, trim it
and parse it as a semantic version. -/
def get_version_of_meson (cap : VersionCapture) : Except Error Version :=
  match cap with
  | .launchFailure => .error .ProcessLaunchError
  | .captured status stdout =>
    match status with
    | .signaled => .error .MesonExitedBySignal
    | .exited code =>
      if code = 0 then
        match stdout with
        | .invalid => .error .InvalidUtf8
        | .decoded s =>
          match Version.parse (rustTrim s) with
          | some v => .ok v
          | none => .error .VersionParseError
      else .error (.MesonExitedUnsuccessfully code)

/-! ## Concrete sample values used by the closed theorems -/

/-- An environment with nothing set. -/
def emptyEnv : Env := fun _ => none

/-- A sample configuration as `find_system_meson` constructs it (path
`"meson"`, some parsed version, everything else empty). -/
def sampleConfig : Config :=
  ⟨"meson", ⟨1, 4, 0, [], []⟩, none, none, none, [], none⟩

/-- A sample configuration with an explicit out path and profile, so that
driving a build depends on no environment variable. -/
def demoConfig : Config :=
  ⟨"meson", ⟨1, 4, 0, [], []⟩, none, none, some "/out", [], some "release"⟩

/-- A tool stub that exits 0 on `setup` and `build` and exits 3 on
`install`: the install phase is the failing one. -/
def installFailsRunner : Runner := fun inv =>
  match inv.args.head? with
  | some "install" => .exited 3
  | _ => .exited 0

/-- A tool stub that exits 0 on `setup` and exits 3 on `build`: the build
phase is the failing one. -/
def buildFailsRunner : Runner := fun inv =>
  match inv.args.head? with
  | some "build" => .exited 3
  | _ => .exited 0

/-- A sample configuration exercising the option map `{"a":"1","b":"two"}`,
a cross file and an explicitly empty profile. -/
def optionsConfig : Config :=
  ⟨"meson", ⟨1, 4, 0, [], []⟩, none, some "/cross.txt", some "/out",
    [("a", "1"), ("b", "two")], some ""⟩

/-! ## Theorems settling the claims -/

/-- C10: each setter (`set_native_file`, `set_cross_file`, `set_out_path`,
`set_option`, `set_profile`) changes only its corresponding field and leaves
every other field unchanged; in particular the resolved executable path
(`meson_path`) and the parsed semantic version (`meson_version`) are fixed at
construction and unchanged by every setter. -/
theorem setters_frame (cfg : Config) (f g o k v p : String) :
    ((cfg.set_native_file f).native_file = some f ∧
      (cfg.set_native_file f).meson_path = cfg.meson_path ∧
      (cfg.set_native_file f).meson_version = cfg.meson_version ∧
      (cfg.set_native_file f).cross_file = cfg.cross_file ∧
      (cfg.set_native_file f).out_path = cfg.out_path ∧
      (cfg.set_native_file f).options = cfg.options ∧
      (cfg.set_native_file f).profile = cfg.profile) ∧
    ((cfg.set_cross_file g).cross_file = some g ∧
      (cfg.set_cross_file g).meson_path = cfg.meson_path ∧
      (cfg.set_cross_file g).meson_version = cfg.meson_version ∧
      (cfg.set_cross_file g).native_file = cfg.native_file ∧
      (cfg.set_cross_file g).out_path = cfg.out_path ∧
      (cfg.set_cross_file g).options = cfg.options ∧
      (cfg.set_cross_file g).profile = cfg.profile) ∧
    ((cfg.set_out_path o).out_path = some o ∧
      (cfg.set_out_path o).meson_path = cfg.meson_path ∧
      (cfg.set_out_path o).meson_version = cfg.meson_version ∧
      (cfg.set_out_path o).native_file = cfg.native_file ∧
      (cfg.set_out_path o).cross_file = cfg.cross_file ∧
      (cfg.set_out_path o).options = cfg.options ∧
      (cfg.set_out_path o).profile = cfg.profile) ∧
    ((cfg.set_option k v).options = insertOption cfg.options k v ∧
      (cfg.set_option k v).meson_path = cfg.meson_path ∧
      (cfg.set_option k v).meson_version = cfg.meson_version ∧
      (cfg.set_option k v).native_file = cfg.native_file ∧
      (cfg.set_option k v).cross_file = cfg.cross_file ∧
      (cfg.set_option k v).out_path = cfg.out_path ∧
      (cfg.set_option k v).profile = cfg.profile) ∧
    ((cfg.set_profile p).profile = some p ∧
      (cfg.set_profile p).meson_path = cfg.meson_path ∧
      (cfg.set_profile p).meson_version = cfg.meson_version ∧
      (cfg.set_profile p).native_file = cfg.native_file ∧
      (cfg.set_profile p).cross_file = cfg.cross_file ∧
      (cfg.set_profile p).out_path = cfg.out_path ∧
      (cfg.set_profile p).options = cfg.options) :=
  ⟨⟨rfl, rfl, rfl, rfl, rfl, rfl, rfl⟩,
    ⟨rfl, rfl, rfl, rfl, rfl, rfl, rfl⟩,
    ⟨rfl, rfl, rfl, rfl, rfl, rfl, rfl⟩,
    ⟨rfl, rfl, rfl, rfl, rfl, rfl, rfl⟩,
    ⟨rfl, rfl, rfl, rfl, rfl, rfl, rfl⟩⟩

/-- C9: output-directory resolution uses the explicit `out_path` when
present, else the `OUT_DIR` environment variable, and panics (modelled as
`none`) when that is also absent; the build and install directories are
always the output directory joined with "build" and "install". -/
theorem out_path_resolution (cfg : Config) (env : Env) :
    (∀ q, cfg.out_path = some q → cfg.out_path? env = some q) ∧
    (cfg.out_path = none → cfg.out_path? env = env "OUT_DIR") ∧
    (cfg.out_path = none → env "OUT_DIR" = none → cfg.out_path? env = none) ∧
    (∀ q, cfg.out_path? env = some q →
      cfg.build_dir? env = some (pathJoin q "build") ∧
      cfg.install_dir? env = some (pathJoin q "install")) := by
  refine ⟨?_, ?_, ?_, ?_⟩
  · intro q hq
    simp [Config.out_path?, hq]
  · intro h
    simp [Config.out_path?, h]
  · intro h h2
    simp [Config.out_path?, h, h2]
  · intro q hq
    simp [Config.build_dir?, Config.install_dir?, hq]

/-- C3: executable resolution returns the value of
`MESON_<TARGET upper-cased, '-' replaced by '_'>` when `TARGET` and that
variable are both set; otherwise the value of `MESON` when set; otherwise
the literal `"meson"`.  Resolution itself never fails: it is a total
function into `String`. -/
theorem find_meson_resolution (env : Env) :
    (∀ t q, env "TARGET" = some t →
      env ("MESON_" ++ rustUpperSnake t) = some q →
      Config.find_meson_in_system env = q) ∧
    (Config.find_meson_target_specific_env env = none →
      (∀ m, env "MESON" = some m → Config.find_meson_in_system env = m) ∧
      (env "MESON" = none → Config.find_meson_in_system env = "meson")) := by
  constructor
  · intro t q ht hq
    simp [Config.find_meson_in_system, Config.find_meson_target_specific_env, ht, hq]
  · intro hnone
    constructor
    · intro m hm
      simp [Config.find_meson_in_system, hnone, hm]
    · intro hm
      simp [Config.find_meson_in_system, hnone, hm]

/-- C2 (counterexample): with no explicit profile and `PROFILE` entirely
absent, profile resolution does not yield `"release"`: it hits the
`env::var("PROFILE").unwrap()` panic, modelled as `none`. -/
theorem profile_absent_panics_cex :
    sampleConfig.profile? emptyEnv = none := by decide

/-- C2 (amended): with no explicit profile set, an entirely absent `PROFILE`
makes profile resolution panic (the code unwraps the missing variable) —
only a present but unrecognized value falls back to `"release"` with a
warning diagnostic. -/
theorem profile_absent_panics (cfg : Config) (env : Env) :
    (cfg.profile = none → env "PROFILE" = none → cfg.profile? env = none) ∧
    (∀ q, cfg.profile = none → env "PROFILE" = some q → q ≠ "debug" →
      q ≠ "release" →
      cfg.profile? env = some ("release", [.warnUnknownProfile q])) := by
  constructor
  · intro h1 h2
    simp [Config.profile?, h1, h2]
  · intro q h1 h2 h3 h4
    simp [Config.profile?, h1, h2, h3, h4]

/-- C1: a tool stub that exits with code 3 during the install phase makes
the build sequence return `Error::MesonBuildUnsuccessfully 3` — the very
same error value a build-phase failure with code 3 returns (`config.rs`
line 192 constructs the build-step variant in the install branch), so the
install-phase failure is not distinctly tagged. -/
theorem install_failure_error_variant :
    (demoConfig.build emptyEnv (fun _ => false) installFailsRunner "/src").1
        = .error (.MesonBuildUnsuccessfully 3) ∧
    (demoConfig.build emptyEnv (fun _ => false) buildFailsRunner "/src").1
        = .error (.MesonBuildUnsuccessfully 3) :=
  ⟨by decide, by decide⟩

/-- C4: when not yet configured, the configure step spawns exactly one
subprocess whose argument sequence is: `setup`; `--buildtype <profile>` only
when the resolved profile is non-empty; one `-D<key>=<value>` flag per
option pair; `--native-file <path>` if set; `--cross-file <path>` if set;
`--prefix <install_dir>`; the source directory last — and when the profile
is empty, the informational diagnostic is emitted and the flag omitted. -/
theorem configure_invocation (cfg : Config) (env : Env) (fs : Fs) (run : Runner)
    (source_dir out profile : String) (diags : List Diagnostic)
    (hout : cfg.out_path? env = some out)
    (hsent : fs (pathJoin (pathJoin out "build") "build.ninja") = false)
    (hprof : cfg.profile? env = some (profile, diags)) :
    (cfg.configure env fs run source_dir).2.1 =
      [⟨cfg.meson_path, source_dir,
        ["setup"]
          ++ (if profile = "" then [] else ["--buildtype", profile])
          ++ cfg.options.map (fun kv => "-D" ++ kv.1 ++ "=" ++ kv.2)
          ++ (match cfg.native_file with
              | some file => ["--native-file", file]
              | none => [])
          ++ (match cfg.cross_file with
              | some file => ["--cross-file", file]
              | none => [])
          ++ ["--prefix", pathJoin out "install", source_dir]⟩] ∧
    (profile = "" →
      (cfg.configure env fs run source_dir).2.2 = diags ++ [.infoEmptyProfile]) := by
  unfold Config.configure
  rw [hout]
  simp only [hsent, Bool.false_eq_true, if_false, hprof]
  constructor
  · cases run ⟨cfg.meson_path, source_dir, _⟩ with
    | launchFailure => simp
    | signaled => simp
    | exited code =>
      by_cases hc : code = 0
      · simp [hc]
      · simp [hc]
  · intro h
    subst h
    cases run ⟨cfg.meson_path, source_dir, _⟩ with
    | launchFailure => simp
    | signaled => simp
    | exited code =>
      by_cases hc : code = 0
      · simp [hc]
      · simp [hc]

/-- C5: when the sentinel `build.ninja` already exists in the derived build
directory, configure is skipped entirely — it spawns nothing and returns
`ok` — and the build sequence proceeds directly to the build step: its first
spawned invocation is the `build -C <build_dir>` step and no configure-phase
error can be returned. -/
theorem sentinel_skips_configure (cfg : Config) (env : Env) (fs : Fs) (run : Runner)
    (source_dir out : String)
    (hout : cfg.out_path? env = some out)
    (hsent : fs (pathJoin (pathJoin out "build") "build.ninja") = true) :
    cfg.configure env fs run source_dir = (.ok, [], []) ∧
    (cfg.build env fs run source_dir).2.1.head? =
      some ⟨cfg.meson_path, source_dir, ["build", "-C", pathJoin out "build"]⟩ ∧
    ∀ c, (cfg.build env fs run source_dir).1 ≠
      .error (.MesonConfiguredUnsuccessfully c) := by
  have hconf : cfg.configure env fs run source_dir = (.ok, [], []) := by
    unfold Config.configure
    rw [hout]
    simp [hsent]
  have hbuild : ∀ r₁ r₂,
      run ⟨cfg.meson_path, source_dir, ["build", "-C", pathJoin out "build"]⟩ = r₁ →
      run ⟨cfg.meson_path, source_dir, ["install", "-C", pathJoin out "build"]⟩ = r₂ →
      (cfg.build env fs run source_dir).2.1.head? =
        some ⟨cfg.meson_path, source_dir, ["build", "-C", pathJoin out "build"]⟩ ∧
      ∀ c, (cfg.build env fs run source_dir).1 ≠
        .error (.MesonConfiguredUnsuccessfully c) := by
    intro r₁ r₂ hb hi
    unfold Config.build
    rw [hconf, hout]
    dsimp only
    cases r₁ with
    | launchFailure => rw [hb]; simp
    | signaled => rw [hb]; simp
    | exited code =>
      rw [hb]
      by_cases hc : code = 0
      · subst hc
        simp only [if_pos rfl]
        cases r₂ with
        | launchFailure => rw [hi]; simp
        | signaled => rw [hi]; simp
        | exited icode =>
          rw [hi]
          by_cases hic : icode = 0
          · simp [hic]
          · simp [hic]
      · simp [hc]
  obtain ⟨h1, h2⟩ := hbuild _ _ rfl rfl
  exact ⟨hconf, h1, h2⟩

/-- C4 witness: the theorem applied to a concrete configuration with options
`{"a":"1","b":"two"}`, a cross file and an empty profile, evaluated. -/
theorem configure_invocation_w :
    (optionsConfig.configure emptyEnv (fun _ => false) (fun _ => .exited 0) "/src").2.1 =
      [⟨"meson", "/src",
        ["setup", "-Da=1", "-Db=two", "--cross-file", "/cross.txt",
          "--prefix", "/out/install", "/src"]⟩] ∧
    ("" = "" →
      (optionsConfig.configure emptyEnv (fun _ => false) (fun _ => .exited 0) "/src").2.2 =
        [] ++ [.infoEmptyProfile]) :=
  configure_invocation optionsConfig emptyEnv (fun _ => false) (fun _ => .exited 0)
    "/src" "/out" "" [] rfl rfl rfl

/-- C5 witness: the theorem applied to a concrete configuration and a
filesystem on which the sentinel exists. -/
theorem sentinel_skips_configure_w :
    demoConfig.configure emptyEnv (fun _ => true) (fun _ => .exited 0) "/src" =
      (.ok, [], []) ∧
    (demoConfig.build emptyEnv (fun _ => true) (fun _ => .exited 0) "/src").2.1.head? =
      some ⟨"meson", "/src", ["build", "-C", pathJoin "/out" "build"]⟩ ∧
    ∀ c, (demoConfig.build emptyEnv (fun _ => true) (fun _ => .exited 0) "/src").1 ≠
      .error (.MesonConfiguredUnsuccessfully c) :=
  sentinel_skips_configure demoConfig emptyEnv (fun _ => true) (fun _ => .exited 0)
    "/src" "/out" rfl rfl

/-- C6: the build sequence runs configure, then build, then install in that
fixed order: if configure does not return `ok`, the whole sequence stops
with configure's outcome and trace (no build or install subprocess is
spawned); if configure returns `ok`, the spawned invocations are configure's
followed by the `build` step, followed by the `install` step exactly when
the build step exited 0. -/
theorem build_sequence_order (cfg : Config) (env : Env) (fs : Fs) (run : Runner)
    (source_dir : String) :
    ((cfg.configure env fs run source_dir).1 ≠ .ok →
      cfg.build env fs run source_dir = cfg.configure env fs run source_dir) ∧
    (∀ out, (cfg.configure env fs run source_dir).1 = .ok →
      cfg.out_path? env = some out →
      (cfg.build env fs run source_dir).2.1 =
        (cfg.configure env fs run source_dir).2.1 ++
          ⟨cfg.meson_path, source_dir, ["build", "-C", pathJoin out "build"]⟩ ::
          (if run ⟨cfg.meson_path, source_dir, ["build", "-C", pathJoin out "build"]⟩
              = .exited 0
           then [⟨cfg.meson_path, source_dir, ["install", "-C", pathJoin out "build"]⟩]
           else [])) := by
  constructor
  · intro hne
    rcases h : cfg.configure env fs run source_dir with ⟨o, invs, diags⟩
    rw [h] at hne
    unfold Config.build
    rw [h]
    cases o with
    | ok => simp at hne
    | error e => rfl
    | panicked => rfl
  · intro out hok hout
    rcases h : cfg.configure env fs run source_dir with ⟨o, invs, diags⟩
    rw [h] at hok
    simp only at hok
    subst hok
    unfold Config.build
    rw [h, hout]
    dsimp only
    rcases hb : run ⟨cfg.meson_path, source_dir, ["build", "-C", pathJoin out "build"]⟩
      with _ | code | _
    · simp
    · by_cases hc : code = 0
      · subst hc
        simp only [if_pos rfl]
        rcases hi : run ⟨cfg.meson_path, source_dir, ["install", "-C", pathJoin out "build"]⟩
          with _ | icode | _
        · simp
        · by_cases hic : icode = 0
          · simp [hic]
          · simp [hic]
        · simp
      · simp [hc]
    · simp

/-- C8: version resolution fails with `ProcessLaunchError` exactly when the
executable cannot be spawned, with `MesonExitedUnsuccessfully c` exactly
when the process exits normally with a non-zero code `c`, with
`MesonExitedBySignal` exactly when it is terminated by a signal, and with
`InvalidUtf8` exactly when it exits 0 but its captured output is not valid
text. -/
theorem version_error_dispatch (cap : VersionCapture) :
    (get_version_of_meson cap = .error .ProcessLaunchError ↔
      cap = .launchFailure) ∧
    (∀ c, get_version_of_meson cap = .error (.MesonExitedUnsuccessfully c) ↔
      (c ≠ 0 ∧ ∃ stdout, cap = .captured (.exited c) stdout)) ∧
    (get_version_of_meson cap = .error .MesonExitedBySignal ↔
      (∃ stdout, cap = .captured .signaled stdout)) ∧
    (get_version_of_meson cap = .error .InvalidUtf8 ↔
      cap = .captured (.exited 0) .invalid) := by
  cases cap with
  | launchFailure => simp [get_version_of_meson]
  | captured status stdout =>
    cases status with
    | signaled => simp [get_version_of_meson]
    | exited code =>
      by_cases hc : code = 0
      · subst hc
        cases stdout with
        | invalid =>
          simp [get_version_of_meson]
          exact fun c h1 h2 => h1 h2.symm
        | decoded s =>
          rcases hp : Version.parse (rustTrim s) with _ | v
          · simp [get_version_of_meson, hp]
            exact fun c h1 h2 => h1 h2.symm
          · simp [get_version_of_meson, hp]
            exact fun c h1 h2 => h1 h2.symm
      · cases stdout with
        | invalid => simp [get_version_of_meson, hc]
        | decoded s => simp [get_version_of_meson, hc]

/-! ## Lemmas about the version renderer and parser (for claim C7) -/

/-- Appending one digit multiplies the accumulated value by ten. -/
theorem digitsVal_append (l : List Char) (c : Char) :
    digitsVal (l ++ [c]) = 10 * digitsVal l + digitVal c := by
  simp [digitsVal, List.foldl_append]

/-- Character facts about `digitChar d` for `d < 10`. -/
theorem digitChar_spec {d : Nat} (hd : d < 10) :
    (digitChar d).isDigit = true ∧ digitVal (digitChar d) = d ∧
      (d ≠ 0 → digitChar d ≠ '0') := by
  interval_cases d <;> exact ⟨by decide, by decide, by decide⟩

/-- Rendering zero digits gives the empty list. -/
theorem natDigitsAux_zero (fuel : Nat) : natDigitsAux fuel 0 = [] := by
  cases fuel <;> simp [natDigitsAux]

/-- The digit renderer is correct: value, digit-only characters, non-empty,
and no leading zero. -/
theorem natDigitsAux_spec :
    ∀ fuel n, 0 < n → n ≤ fuel →
      digitsVal (natDigitsAux fuel n) = n ∧
      (natDigitsAux fuel n).all Char.isDigit = true ∧
      natDigitsAux fuel n ≠ [] ∧
      (natDigitsAux fuel n).head? ≠ some '0' := by
  intro fuel
  induction fuel with
  | zero => intro n hn hle; omega
  | succ fuel ih =>
    intro n hn hle
    have hne : ¬ n = 0 := by omega
    have hmod : n % 10 < 10 := Nat.mod_lt _ (by norm_num)
    obtain ⟨hdig, hval, hzero⟩ := digitChar_spec hmod
    by_cases hdiv : n / 10 = 0
    · have hlt : n < 10 := by omega
      have hmodn : n % 10 = n := Nat.mod_eq_of_lt hlt
      simp only [natDigitsAux, hne, if_false, hdiv, natDigitsAux_zero,
        List.nil_append]
      refine ⟨?_, ?_, ?_, ?_⟩
      · have h2 : digitsVal [digitChar (n % 10)] = digitVal (digitChar (n % 10)) := by
          simp [digitsVal]
        rw [h2, hval, hmodn]
      · simp [hdig]
      · simp
      · simp only [List.head?_cons, ne_eq, Option.some.injEq]
        intro hcontra
        exact hzero (by omega) hcontra
    · have hdivpos : 0 < n / 10 := Nat.pos_of_ne_zero hdiv
      have hdivle : n / 10 ≤ fuel := by
        have : n / 10 < n := Nat.div_lt_self hn (by norm_num)
        omega
      obtain ⟨ihval, ihdig, ihne, ihhead⟩ := ih (n / 10) hdivpos hdivle
      simp only [natDigitsAux, hne, if_false]
      refine ⟨?_, ?_, ?_, ?_⟩
      · rw [digitsVal_append, ihval, hval]
        omega
      · simp [List.all_append, ihdig, hdig]
      · simp
      · obtain ⟨hd, tl, hcons⟩ := List.exists_cons_of_ne_nil ihne
        rw [hcons]
        rw [hcons] at ihhead
        simpa using ihhead

/-- Parsing the rendering of a number recovers the number. -/
theorem parseNumericIdent_natDigits (n : Nat) :
    parseNumericIdent (natDigits n) = some n := by
  by_cases hn : n = 0
  · subst hn
    decide
  · have hpos : 0 < n := Nat.pos_of_ne_zero hn
    obtain ⟨hval, hdig, hne, hhead⟩ := natDigitsAux_spec (n + 1) n hpos (by omega)
    unfold natDigits
    rw [if_neg hn]
    unfold parseNumericIdent
    rw [if_neg hne, if_pos hdig, if_neg ?_, hval]
    rintro ⟨-, hcontra⟩
    exact hhead hcontra

/-- A list without the separator splits into itself. -/
theorem splitFirst_of_not_mem {sep : Char} :
    ∀ {l : List Char}, sep ∉ l → splitFirst sep l = (l, none) := by
  intro l
  induction l with
  | nil => intro _; rfl
  | cons c rest ih =>
    intro h
    have hc : ¬ c = sep := fun hc => h (hc ▸ List.mem_cons_self c rest)
    have hrest : sep ∉ rest := fun hm => h (List.mem_cons_of_mem c hm)
    simp [splitFirst, hc, ih hrest]

/-- Splitting at the first separator occurrence. -/
theorem splitFirst_append {sep : Char} :
    ∀ {a : List Char} (b : List Char), sep ∉ a →
      splitFirst sep (a ++ sep :: b) = (a, some b) := by
  intro a
  induction a with
  | nil => intro b _; simp [splitFirst]
  | cons c rest ih =>
    intro b h
    have hc : ¬ c = sep := fun hc => h (hc ▸ List.mem_cons_self c rest)
    have hrest : sep ∉ rest := fun hm => h (List.mem_cons_of_mem c hm)
    simp [splitFirst, hc, ih b hrest]

/-- `splitOnChar` always yields at least one part. -/
theorem splitOnChar_ne_nil (sep : Char) : ∀ l : List Char, splitOnChar sep l ≠ [] := by
  intro l
  induction l with
  | nil => simp [splitOnChar]
  | cons c rest ih =>
    simp only [splitOnChar]
    by_cases hc : c = sep
    · simp [hc]
    · simp only [hc, if_false]
      rcases hr : splitOnChar sep rest with _ | ⟨h, t⟩
      · simp
      · simp

/-- A list without the separator is a single part. -/
theorem splitOnChar_of_not_mem {sep : Char} :
    ∀ {l : List Char}, sep ∉ l → splitOnChar sep l = [l] := by
  intro l
  induction l with
  | nil => intro _; rfl
  | cons c rest ih =>
    intro h
    have hc : ¬ c = sep := fun hc => h (hc ▸ List.mem_cons_self c rest)
    have hrest : sep ∉ rest := fun hm => h (List.mem_cons_of_mem c hm)
    simp [splitOnChar, hc, ih hrest]

/-- Splitting peels off a separator-free prefix. -/
theorem splitOnChar_append {sep : Char} :
    ∀ {a : List Char} (b : List Char), sep ∉ a →
      splitOnChar sep (a ++ sep :: b) = a :: splitOnChar sep b := by
  intro a
  induction a with
  | nil => intro b _; simp [splitOnChar]
  | cons c rest ih =>
    intro b h
    have hc : ¬ c = sep := fun hc => h (hc ▸ List.mem_cons_self c rest)
    have hrest : sep ∉ rest := fun hm => h (List.mem_cons_of_mem c hm)
    have := ih b hrest
    simp only [List.cons_append, splitOnChar, hc, if_false, List.append_eq, this]

/-- Splitting the dot-joined parts recovers the parts. -/
theorem splitOnChar_joinDots :
    ∀ {parts : List (List Char)}, parts ≠ [] → (∀ p ∈ parts, '.' ∉ p) →
      splitOnChar '.' (joinDots parts) = parts := by
  intro parts
  induction parts with
  | nil => intro h _; exact absurd rfl h
  | cons p rest ih =>
    intro _ hdot
    cases rest with
    | nil =>
      have : '.' ∉ p := hdot p (List.mem_cons_self p [])
      simp [joinDots, splitOnChar_of_not_mem this]
    | cons q rest2 =>
      have hp : '.' ∉ p := hdot p (List.mem_cons_self p _)
      have hrest : ∀ r ∈ q :: rest2, '.' ∉ r :=
        fun r hr => hdot r (List.mem_cons_of_mem p hr)
      show splitOnChar '.' (p ++ '.' :: joinDots (q :: rest2)) = p :: q :: rest2
      rw [splitOnChar_append _ hp, ih (by simp) hrest]

/-- Membership in the whole list, from a `List.all` fact. -/
theorem not_mem_of_all {p : Char → Bool} :
    ∀ {l : List Char}, l.all p = true → ∀ {c : Char}, p c = false → c ∉ l := by
  intro l hall c hc hm
  rw [List.all_eq_true] at hall
  have := hall c hm
  rw [hc] at this
  exact Bool.false_ne_true this

/-- Characters of joined parts are part characters or dots. -/
theorem mem_joinDots :
    ∀ {parts : List (List Char)} {c : Char}, c ∈ joinDots parts →
      c = '.' ∨ ∃ p ∈ parts, c ∈ p := by
  intro parts
  induction parts with
  | nil => intro c h; simp [joinDots] at h
  | cons p rest ih =>
    intro c h
    cases rest with
    | nil =>
      simp only [joinDots] at h
      exact Or.inr ⟨p, List.mem_cons_self p [], h⟩
    | cons q rest2 =>
      rw [show joinDots (p :: q :: rest2) = p ++ '.' :: joinDots (q :: rest2) from rfl]
        at h
      rcases List.mem_append.mp h with hp | hrest
      · exact Or.inr ⟨p, List.mem_cons_self p _, hp⟩
      · rcases List.mem_cons.mp hrest with hdot | hrest2
        · exact Or.inl hdot
        · rcases ih hrest2 with hdot | ⟨r, hr, hcr⟩
          · exact Or.inl hdot
          · exact Or.inr ⟨r, List.mem_cons_of_mem p hr, hcr⟩

/-- The rendered digits of a number are all digit characters. -/
theorem natDigits_all_digit (n : Nat) : (natDigits n).all Char.isDigit = true := by
  by_cases hn : n = 0
  · subst hn; decide
  · have hpos : 0 < n := Nat.pos_of_ne_zero hn
    obtain ⟨-, hdig, -, -⟩ := natDigitsAux_spec (n + 1) n hpos (by omega)
    unfold natDigits
    rw [if_neg hn]
    exact hdig

/-- A non-digit character does not occur in rendered digits. -/
theorem not_mem_natDigits {c : Char} (hc : c.isDigit = false) (n : Nat) :
    c ∉ natDigits n :=
  not_mem_of_all (natDigits_all_digit n) hc

/-- A valid pre-release identifier uses only identifier characters. -/
theorem isPreIdent_ident {l : List Char} (h : isPreIdent l = true) :
    l.all isIdentChar = true := by
  unfold isPreIdent at h
  exact (Bool.and_eq_true_iff.mp ((Bool.and_eq_true_iff.mp h).1)).2

/-- A valid build identifier uses only identifier characters. -/
theorem isBuildIdent_ident {l : List Char} (h : isBuildIdent l = true) :
    l.all isIdentChar = true :=
  (Bool.and_eq_true_iff.mp h).2

/-- A character that is neither a dot, nor an identifier character, does not
occur in dot-joined identifier parts. -/
theorem not_mem_joinDots {parts : List (List Char)}
    (hall : ∀ p ∈ parts, p.all isIdentChar = true) {c : Char}
    (hdot : c ≠ '.') (hc : isIdentChar c = false) : c ∉ joinDots parts := by
  intro hm
  rcases mem_joinDots hm with h | ⟨p, hp, hcp⟩
  · exact hdot h
  · exact not_mem_of_all (hall p hp) hc hcp

/-- A character that is neither a dot nor a digit does not occur in the
version core text. -/
theorem not_mem_versionCore {c : Char} (hdot : c ≠ '.')
    (hc : c.isDigit = false) (v : Version) : c ∉ versionCore v := by
  intro hm
  unfold versionCore at hm
  rcases List.mem_append.mp hm with h1 | h2
  · exact not_mem_natDigits hc v.major h1
  · rcases List.mem_cons.mp h2 with h | h3
    · exact hdot h
    · rcases List.mem_append.mp h3 with h4 | h5
      · exact not_mem_natDigits hc v.minor h4
      · rcases List.mem_cons.mp h5 with h | h6
        · exact hdot h
        · exact not_mem_natDigits hc v.patch h6

/-- Splitting the version core on dots yields the three digit groups. -/
theorem splitOnChar_versionCore (v : Version) :
    splitOnChar '.' (versionCore v) =
      [natDigits v.major, natDigits v.minor, natDigits v.patch] := by
  unfold versionCore
  rw [splitOnChar_append _ (not_mem_natDigits (by decide) v.major),
    splitOnChar_append _ (not_mem_natDigits (by decide) v.minor),
    splitOnChar_of_not_mem (not_mem_natDigits (by decide) v.patch)]

/-- Parsing the dot-joined rendering of valid identifiers recovers them. -/
theorem parseDotted_joinDots {ok : List Char → Bool} {parts : List String}
    (hne : parts ≠ [])
    (hok : parts.all (fun p => ok p.data) = true)
    (hident : ∀ p ∈ parts, '.' ∉ p.data) :
    parseDotted ok (joinDots (parts.map String.data)) = some parts := by
  unfold parseDotted
  have hne2 : parts.map String.data ≠ [] := by
    simpa using hne
  have hdots : ∀ p ∈ parts.map String.data, '.' ∉ p := by
    intro p hp
    obtain ⟨q, hq, rfl⟩ := List.mem_map.mp hp
    exact hident q hq
  rw [splitOnChar_joinDots hne2 hdots]
  have hall : (parts.map String.data).all ok = true := by
    rw [show ∀ ps : List String, (ps.map String.data).all ok =
        ps.all (fun p => ok p.data) from ?_]
    · exact hok
    · intro ps
      induction ps with
      | nil => rfl
      | cons p rest ih => simp [ih]
  rw [if_pos hall, List.map_map]
  have hid : (String.mk ∘ String.data) = id := funext fun s => rfl
  rw [hid, List.map_id]

/-- Parsing the canonical text of a version whose pre-release and build
identifier lists are valid recovers the version exactly. -/
theorem parseVersion_renderVersion (v : Version)
    (hpre : validPre v = true) (hbuild : validBuild v = true) :
    parseVersion (renderVersion v) = some v := by
  unfold validPre at hpre
  unfold validBuild at hbuild
  have hpreOk : ∀ p ∈ v.pre, isPreIdent p.data = true := by
    intro p hp
    simpa using List.all_eq_true.mp hpre p hp
  have hbldOk : ∀ p ∈ v.build, isBuildIdent p.data = true := by
    intro p hp
    simpa using List.all_eq_true.mp hbuild p hp
  have hpreDots : ∀ p ∈ v.pre, '.' ∉ p.data := fun p hp =>
    not_mem_of_all (isPreIdent_ident (hpreOk p hp)) (by decide)
  have hbldDots : ∀ p ∈ v.build, '.' ∉ p.data := fun p hp =>
    not_mem_of_all (isBuildIdent_ident (hbldOk p hp)) (by decide)
  have hplus : '+' ∉ versionCore v ++
      (if v.pre = [] then [] else '-' :: joinDots (v.pre.map String.data)) := by
    intro hm
    rcases List.mem_append.mp hm with h1 | h2
    · exact not_mem_versionCore (by decide) (by decide) v h1
    · by_cases hp : v.pre = []
      · rw [if_pos hp] at h2
        simp at h2
      · rw [if_neg hp] at h2
        rcases List.mem_cons.mp h2 with h | h3
        · exact absurd h (by decide)
        · refine not_mem_joinDots ?_ (by decide) (by decide) h3
          intro p hp2
          obtain ⟨q, hq, rfl⟩ := List.mem_map.mp hp2
          exact isPreIdent_ident (hpreOk q hq)
  have hminus : '-' ∉ versionCore v := not_mem_versionCore (by decide) (by decide) v
  have hsplit1 : splitFirst '+' (renderVersion v) =
      (versionCore v
          ++ (if v.pre = [] then [] else '-' :: joinDots (v.pre.map String.data)),
        if v.build = [] then none
        else some (joinDots (v.build.map String.data))) := by
    unfold renderVersion
    by_cases hb : v.build = []
    · rw [if_pos hb, if_pos hb, List.append_nil]
      exact splitFirst_of_not_mem hplus
    · rw [if_neg hb, if_neg hb]
      exact splitFirst_append _ hplus
  have hsplit2 : splitFirst '-' (versionCore v
        ++ (if v.pre = [] then [] else '-' :: joinDots (v.pre.map String.data))) =
      (versionCore v,
        if v.pre = [] then none
        else some (joinDots (v.pre.map String.data))) := by
    by_cases hp : v.pre = []
    · rw [if_pos hp, if_pos hp, List.append_nil]
      exact splitFirst_of_not_mem hminus
    · rw [if_neg hp, if_neg hp]
      exact splitFirst_append _ hminus
  have hpreParse : parsePreOpt
      (if v.pre = [] then none else some (joinDots (v.pre.map String.data))) =
      some v.pre := by
    by_cases hp : v.pre = []
    · rw [if_pos hp, hp]
      rfl
    · rw [if_neg hp]
      exact parseDotted_joinDots hp hpre hpreDots
  have hbldParse : parseBuildOpt
      (if v.build = [] then none else some (joinDots (v.build.map String.data))) =
      some v.build := by
    by_cases hb : v.build = []
    · rw [if_pos hb, hb]
      rfl
    · rw [if_neg hb]
      exact parseDotted_joinDots hb hbuild hbldDots
  unfold parseVersion
  rw [hsplit1]
  dsimp only
  rw [hsplit2]
  dsimp only
  rw [splitOnChar_versionCore]
  dsimp only
  rw [parseNumericIdent_natDigits, parseNumericIdent_natDigits,
    parseNumericIdent_natDigits, hpreParse, hbldParse]

/-- C7: when the trimmed captured text is a valid semantic version
`X.Y.Z[-pre][+build]` (numeric components within `u64`, identifier lists
valid), version resolution succeeds with exactly those components, leading
and trailing whitespace ignored; when the trimmed text does not parse as a
semantic version, it fails with `VersionParseError` (the model is total, so
no panic is possible). -/
theorem version_parse_roundtrip :
    (∀ (s : String) (v : Version), validPre v = true → validBuild v = true →
      v.major < 2 ^ 64 → v.minor < 2 ^ 64 → v.patch < 2 ^ 64 →
      (rustTrim s).data = renderVersion v →
      get_version_of_meson (.captured (.exited 0) (.decoded s)) = .ok v) ∧
    (∀ s : String, Version.parse (rustTrim s) = none →
      get_version_of_meson (.captured (.exited 0) (.decoded s)) =
        .error .VersionParseError) := by
  constructor
  · intro s v hpre hbuild _ _ _ htrim
    have hparse : Version.parse (rustTrim s) = some v := by
      unfold Version.parse
      rw [htrim]
      exact parseVersion_renderVersion v hpre hbuild
    simp [get_version_of_meson, hparse]
  · intro s hparse
    simp [get_version_of_meson, hparse]

/-- C7 witness: evaluation at a concrete banner with whitespace, pre-release
and build suffix, and at a concrete malformed banner. -/
theorem version_parse_roundtrip_w :
    get_version_of_meson
        (.captured (.exited 0) (.decoded " 1.21.3-rc.1+20240101 \n")) =
      .ok ⟨1, 21, 3, ["rc", "1"], ["20240101"]⟩ ∧
    get_version_of_meson (.captured (.exited 0) (.decoded "not-a-version")) =
      .error .VersionParseError :=
  ⟨version_parse_roundtrip.1 " 1.21.3-rc.1+20240101 \n"
      ⟨1, 21, 3, ["rc", "1"], ["20240101"]⟩
      (by decide) (by decide) (by decide) (by decide) (by decide) (by decide),
    version_parse_roundtrip.2 "not-a-version" (by decide)⟩

end MesonExt
